import Mathlib

/-!
Shallow embedding of the order-tracking / copy-trading core of the
`option-tracker` repository, together with proofs of the specification
claims about it.

The embedded Python code lives in:
* `src/multi_account_copy_trader.py` — `CopyTradingSettings`,
  `OrderTracker`, `MultiAccountCopyTrader`;
* `src/smart_polling.py` — `SmartPollingMonitor`;
* `src/multi_account_client.py` — `MultiAccountClient`.

Python dictionaries returned by the broker are modelled as fixed-shape
records with optional fields (a missing key is `none`); Python truthiness
of the relevant values is modelled explicitly; stateful methods become
functions from an explicit state (plus the broker's response and, where
it matters, the current wall-clock time as a rational) to the new state
and the returned value.
-/

namespace OptionTracker

/-- Python truthiness of an optional string: `None` and `''` are falsy. -/
def pyTruthyStr : Option String → Bool
  | none => false
  | some s => s ≠ ""

/-- Python truthiness of an optional integer: `None` and `0` are falsy. -/
def pyTruthyInt : Option Int → Bool
  | none => false
  | some n => n ≠ 0

/-- Python truthiness of an optional rational (a float in the source):
`None` and `0.0` are falsy. -/
def pyTruthyRat : Option ℚ → Bool
  | none => false
  | some q => q ≠ 0

/-- Python `int(q)` on a rational: truncation toward zero. -/
def pyInt (q : ℚ) : Int :=
  if 0 ≤ q then ⌊q⌋ else -⌊-q⌋

/-- An order dictionary as returned by the broker's `orderBook()` call.
Only the fields the embedded logic reads are modelled; a field whose key
may be absent from the dictionary is an `Option`. -/
structure Order where
  orderid : Option String := none
  tradingsymbol : Option String := none
  ordertype : Option String := none
  status : Option String := none
  quantity : Int := 0
  deriving Repr, DecidableEq

/-- `CopyTradingSettings` (src/multi_account_copy_trader.py, `__init__`):
the fields read by `should_copy_order` and `calculate_follower_quantity`,
with the source's defaults. -/
structure CopyTradingSettings where
  copy_all_orders : Bool := true
  allowed_symbols : List String := []
  blocked_symbols : List String := []
  use_fixed_quantity : Bool := false
  fixed_quantity : Option Int := none
  quantity_multiplier : ℚ := 1
  copy_market_orders : Bool := true
  copy_limit_orders : Bool := true
  copy_stop_orders : Bool := true
  deriving Repr, DecidableEq

/-- `CopyTradingSettings.should_copy_order`
(src/multi_account_copy_trader.py lines 42–71).  `order.get(k, '')`
becomes `getD ""`; `.upper()` becomes `String.toUpper`. -/
def should_copy_order (s : CopyTradingSettings) (order : Order) : Bool × String :=
  let symbol := order.tradingsymbol.getD ""
  let order_type := (order.ordertype.getD "").toUpper
  if symbol ∈ s.blocked_symbols then
    (false, "Symbol " ++ symbol ++ " is blocked")
  else if !s.copy_all_orders && symbol ∉ s.allowed_symbols then
    (false, "Symbol " ++ symbol ++ " not in allowed list")
  else if order_type = "MARKET" && !s.copy_market_orders then
    (false, "Market orders disabled")
  else if order_type = "LIMIT" && !s.copy_limit_orders then
    (false, "Limit orders disabled")
  else if (order_type = "STOPLOSS" || order_type = "STOPLOSS_MARKET")
      && !s.copy_stop_orders then
    (false, "Stop orders disabled")
  else
    (true, "Order passes all filters")

/-- `CopyTradingSettings.calculate_follower_quantity`
(src/multi_account_copy_trader.py lines 73–88).  The Python guard
`if self.use_fixed_quantity and self.fixed_quantity` tests truthiness of
`fixed_quantity` (so `None` and `0` fall through); `int(...)` truncates
toward zero. -/
def calculate_follower_quantity (s : CopyTradingSettings)
    (master_quantity : Int) : Int :=
  if s.use_fixed_quantity && pyTruthyInt s.fixed_quantity then
    s.fixed_quantity.getD 0
  else
    pyInt ((master_quantity : ℚ) * s.quantity_multiplier)

/-- `OrderTracker` state (src/multi_account_copy_trader.py lines 91–98):
the set of master order ids already observed.  The copy-record lists are
not needed by the claims under proof. -/
structure OrderTracker where
  known_master_orders : Finset String := ∅
  deriving DecidableEq

/-- `OrderTracker.is_new_order` (src/multi_account_copy_trader.py lines
100–105): membership test plus insertion, returning whether the id was
unseen together with the updated tracker. -/
def is_new_order (t : OrderTracker) (order_id : String) : Bool × OrderTracker :=
  if order_id ∈ t.known_master_orders then
    (false, t)
  else
    (true, { t with known_master_orders := insert order_id t.known_master_orders })

/-- `MultiAccountCopyTrader._initialize_known_orders`
(src/multi_account_copy_trader.py lines 186–201), given the `data` list
of the seed order-book snapshot: every order whose `orderid` is truthy is
pre-inserted into the known set. -/
def initialize_known_orders (seed : List Order) : OrderTracker :=
  { known_master_orders :=
      seed.foldl
        (fun acc o =>
          if pyTruthyStr o.orderid then insert (o.orderid.getD "") acc else acc)
        ∅ }

/-- The for-loop of `MultiAccountCopyTrader.check_for_new_orders`
(src/multi_account_copy_trader.py lines 216–223), written as recursion
over the snapshot: for each order, if its `orderid` is truthy and
`is_new_order` (which inserts it) returns true, the order is appended to
the result when its `status` is `'complete'`. -/
def detect_new (known : Finset String) : List Order → Finset String × List Order
  | [] => (known, [])
  | o :: rest =>
    if pyTruthyStr o.orderid then
      let oid := o.orderid.getD ""
      if oid ∈ known then
        detect_new known rest
      else
        let r := detect_new (insert oid known) rest
        if o.status = some "complete" then (r.1, o :: r.2) else r
    else
      detect_new known rest

/-- `MultiAccountCopyTrader.check_for_new_orders`
(src/multi_account_copy_trader.py lines 203–229) on the tracker state.
`order_book` is `none` when the response is falsy, lacks a `'data'` key,
or its `data` is falsy (`None` or the empty list): all those guards
return `[]` without touching the tracker. -/
def check_for_new_orders (t : OrderTracker) (order_book : Option (List Order)) :
    OrderTracker × List Order :=
  match order_book with
  | none => (t, [])
  | some data =>
    let r := detect_new t.known_master_orders data
    ({ known_master_orders := r.1 }, r.2)

/-- A monitoring session of `MultiAccountCopyTrader.start_monitoring`:
starting from a tracker state, process a sequence of order-book
snapshots with `check_for_new_orders`, collecting the list returned on
each tick. -/
def run_session (t : OrderTracker) :
    List (Option (List Order)) → OrderTracker × List (List Order)
  | [] => (t, [])
  | ob :: rest =>
    let r := check_for_new_orders t ob
    let rr := run_session r.1 rest
    (rr.1, r.2 :: rr.2)

/-- Number of orders in a tick's output carrying the order id `x`. -/
def countOrderId (x : String) (out : List Order) : Nat :=
  out.countP (fun o => o.orderid == some x)

/-- Total number of times an order id `x` is reported as new over a
whole monitoring session. -/
def sessionCount (t : OrderTracker) (snaps : List (Option (List Order)))
    (x : String) : Nat :=
  ((run_session t snaps).2.map (countOrderId x)).sum

/-! ### SmartPollingMonitor (src/smart_polling.py) -/

/-- Mutable state of `SmartPollingMonitor` (src/smart_polling.py,
`__init__`): the known-order set, the sliding rate-limit window and the
throttle-backoff state.  Wall-clock times are rationals (seconds). -/
structure SmartPollingState where
  known_order_ids : Finset String := ∅
  api_calls_count : Nat := 0
  api_calls_window_start : ℚ := 0
  max_calls_per_minute : Nat := 10
  consecutive_rate_limits : Nat := 0
  backoff_until : Option ℚ := none
  deriving DecidableEq

/-- `SmartPollingMonitor._check_rate_limit` (src/smart_polling.py lines
105–126), with the current time explicit.  Returns the updated state and
the number of seconds slept (0 when the call proceeds immediately); a
sleep is modelled as advancing the clock by exactly the slept amount, so
the `time.time()` taken after the sleep is `now + slept`. -/
def check_rate_limit (st : SmartPollingState) (now : ℚ) :
    SmartPollingState × ℚ :=
  let st :=
    if 60 ≤ now - st.api_calls_window_start then
      { st with api_calls_count := 0, api_calls_window_start := now }
    else st
  if st.max_calls_per_minute ≤ st.api_calls_count then
    let wait_time := 60 - (now - st.api_calls_window_start)
    if 0 < wait_time then
      ({ st with api_calls_count := 0,
                 api_calls_window_start := now + (wait_time + 1) },
       wait_time + 1)
    else (st, 0)
  else (st, 0)

/-- Outcome of the `self.client.get_order_book()` call inside
`SmartPollingMonitor.check_for_new_orders`: either a normal return, with
`none` standing for every falsy/short-circuited shape (`not order_book`,
`'data' not in order_book`, or falsy `order_book['data']`) and
`some data` for a non-empty data list, or an exception, tagged with
whether its message contains `'rate'` or `'access denied'`. -/
inductive FetchOutcome where
  | ok (data : Option (List Order))
  | exn (isThrottle : Bool)
  deriving Repr, DecidableEq

/-- The for-loop of `SmartPollingMonitor.check_for_new_orders`
(src/smart_polling.py lines 163–172): like `detect_new` but with no
status filter — every unseen truthy-id order is returned. -/
def sp_detect_new (known : Finset String) : List Order → Finset String × List Order
  | [] => (known, [])
  | o :: rest =>
    if pyTruthyStr o.orderid then
      let oid := o.orderid.getD ""
      if oid ∈ known then
        sp_detect_new known rest
      else
        let r := sp_detect_new (insert oid known) rest
        (r.1, o :: r.2)
    else
      sp_detect_new known rest

/-- Result of one `SmartPollingMonitor.check_for_new_orders` poll: the
new state, the returned list, whether the broker was actually called,
and the seconds slept inside `_check_rate_limit`. -/
structure SpPollResult where
  state : SmartPollingState
  new_orders : List Order
  called : Bool
  slept : ℚ
  deriving DecidableEq

/-- `SmartPollingMonitor.check_for_new_orders` (src/smart_polling.py
lines 135–192), with the current time and the broker outcome explicit.
The backoff guard `if self.backoff_until and time.time() < self.backoff_until`
tests Python truthiness of the stored float.  On a throttling exception
the backoff deadline is set to
`now + min (60 * 2 ^ (consecutive_rate_limits - 1)) 300` with the
already-incremented counter, and the rate window is reset; on a
successful call the counter and deadline are cleared before the data
guards run. -/
def sp_check_for_new_orders (st : SmartPollingState) (now : ℚ)
    (fetch : FetchOutcome) : SpPollResult :=
  if pyTruthyRat st.backoff_until ∧ now < st.backoff_until.getD 0 then
    ⟨st, [], false, 0⟩
  else
    let rc := check_rate_limit st now
    let st := rc.1
    let now := now + rc.2
    match fetch with
    | .ok data =>
      let st := { st with api_calls_count := st.api_calls_count + 1,
                          consecutive_rate_limits := 0,
                          backoff_until := none }
      match data with
      | none => ⟨st, [], true, rc.2⟩
      | some order_data =>
        let r := sp_detect_new st.known_order_ids order_data
        ⟨{ st with known_order_ids := r.1 }, r.2, true, rc.2⟩
    | .exn true =>
      let n := st.consecutive_rate_limits + 1
      let backoff_time : ℚ := min (60 * 2 ^ (n - 1)) 300
      ⟨{ st with consecutive_rate_limits := n,
                 backoff_until := some (now + backoff_time),
                 api_calls_count := 0,
                 api_calls_window_start := now }, [], true, rc.2⟩
    | .exn false => ⟨st, [], true, rc.2⟩

/-! ### MultiAccountClient (src/multi_account_client.py) -/

/-- Session-related mutable state of `MultiAccountClient`
(src/multi_account_client.py, `__init__`). -/
structure MAClientState where
  session_data : Option String := none
  feed_token : Option String := none
  session_time : Option String := none
  is_initialized : Bool := false
  deriving Repr, DecidableEq

/-- Outcome of one `generateSession`/`getfeedToken` attempt inside
`initialize_session`: success, an exception whose lowered message
contains `'access rate'` or `'access denied'` (throttling class), or any
other exception. -/
inductive LoginResult where
  | success
  | throttle
  | otherError
  deriving Repr, DecidableEq

/-- The values a successful login stores into the client state. -/
structure SessionInfo where
  session_data : String
  feed_token : String
  session_time : String
  deriving Repr, DecidableEq

/-- Result of `initialize_session`: the returned boolean, the final
client state, the list of `time.sleep` waits performed (in seconds, in
order), and the number of login attempts actually made against the
broker. -/
structure InitResult where
  ok : Bool
  state : MAClientState
  waits : List Nat
  attempts : Nat
  deriving Repr, DecidableEq

/-- The `while retry_count < max_retries` loop of
`MultiAccountClient.initialize_session` (src/multi_account_client.py
lines 48–84).  `oracle i` is the outcome of the attempt made with
`retry_count = i`; `fuel` is `max_retries - retry_count`, which the loop
decreases. -/
def initSessionLoop (oracle : Nat → LoginResult) (info : SessionInfo)
    (max_retries base_delay : Nat) :
    Nat → Nat → MAClientState → InitResult
  | 0, _, st => ⟨false, st, [], 0⟩
  | fuel + 1, retry_count, st =>
    match oracle retry_count with
    | .success =>
      ⟨true,
       { st with session_data := some info.session_data,
                 feed_token := some info.feed_token,
                 session_time := some info.session_time,
                 is_initialized := true },
       [], 1⟩
    | .throttle =>
      if retry_count + 1 < max_retries then
        let wait_time := base_delay * (retry_count + 1)
        let r := initSessionLoop oracle info max_retries base_delay fuel
          (retry_count + 1) st
        ⟨r.ok, r.state, wait_time :: r.waits, r.attempts + 1⟩
      else
        ⟨false, st, [], 1⟩
    | .otherError => ⟨false, st, [], 1⟩

/-- `MultiAccountClient.initialize_session` (src/multi_account_client.py
lines 36–84): an already-initialized client returns `True` at once with
no broker attempt; otherwise the retry loop runs from `retry_count = 0`. -/
def initialize_session (st : MAClientState) (oracle : Nat → LoginResult)
    (info : SessionInfo) (max_retries base_delay : Nat) : InitResult :=
  if st.is_initialized then ⟨true, st, [], 0⟩
  else initSessionLoop oracle info max_retries base_delay max_retries 0 st

/-- Result of a guarded SDK call (`place_order`, `get_order_book`,
`get_trade_book`): the returned-or-raised value, the (unchanged) client
state, and whether the wrapped SDK was invoked. -/
structure GuardedCallResult (α : Type) where
  result : Except String α
  state : MAClientState
  sdk_called : Bool

/-- `MultiAccountClient.place_order` (src/multi_account_client.py lines
86–104): raises before touching the SDK when not initialized; otherwise
forwards the SDK's return value or re-raises its exception. -/
def place_order {α : Type} (st : MAClientState) (name : String)
    (sdk : Except String α) : GuardedCallResult α :=
  if st.is_initialized then ⟨sdk, st, true⟩
  else ⟨Except.error ("Client " ++ name ++ " not initialized"), st, false⟩

/-- `MultiAccountClient.get_order_book` (src/multi_account_client.py
lines 106–114): same guard as `place_order`. -/
def get_order_book {α : Type} (st : MAClientState) (name : String)
    (sdk : Except String α) : GuardedCallResult α :=
  if st.is_initialized then ⟨sdk, st, true⟩
  else ⟨Except.error ("Client " ++ name ++ " not initialized"), st, false⟩

/-- `MultiAccountClient.get_trade_book` (src/multi_account_client.py
lines 116–124): same guard as `place_order`. -/
def get_trade_book {α : Type} (st : MAClientState) (name : String)
    (sdk : Except String α) : GuardedCallResult α :=
  if st.is_initialized then ⟨sdk, st, true⟩
  else ⟨Except.error ("Client " ++ name ++ " not initialized"), st, false⟩

/-! ### Helper lemmas about order detection -/

lemma pyTruthyStr_eq_some {x : Option String} (h : pyTruthyStr x = true) :
    x = some (x.getD "") := by
  cases x <;> simp_all [pyTruthyStr]

lemma detect_new_known_subset (snap : List Order) (known : Finset String) :
    known ⊆ (detect_new known snap).1 := by
  induction snap generalizing known with
  | nil => simp [detect_new]
  | cons o rest ih =>
    by_cases ht : pyTruthyStr o.orderid = true
    · by_cases hm : o.orderid.getD "" ∈ known
      · simp only [detect_new, ht, if_true, hm]
        exact ih known
      · simp only [detect_new, ht, if_true, hm, if_false]
        have h1 : known ⊆ insert (o.orderid.getD "") known :=
          Finset.subset_insert _ _
        have h2 := ih (insert (o.orderid.getD "") known)
        by_cases hs : o.status = some "complete" <;>
          simp only [hs, if_true, if_false, reduceIte] <;>
          exact h1.trans h2
    · simp only [detect_new, ht, if_false, Bool.false_eq_true]
      exact ih known

lemma countOrderId_cons (x : String) (o : Order) (l : List Order) :
    countOrderId x (o :: l) =
      countOrderId x l + (if (o.orderid == some x) = true then 1 else 0) := by
  simp [countOrderId, List.countP_cons]

lemma detect_new_count_zero_of_mem (snap : List Order) (known : Finset String)
    (x : String) (hx : x ∈ known) :
    countOrderId x (detect_new known snap).2 = 0 := by
  induction snap generalizing known with
  | nil => simp [detect_new, countOrderId]
  | cons o rest ih =>
    by_cases ht : pyTruthyStr o.orderid = true
    · by_cases hm : o.orderid.getD "" ∈ known
      · simp only [detect_new, ht, if_true, hm]
        exact ih known hx
      · have hne : o.orderid.getD "" ≠ x := fun h => hm (h ▸ hx)
        have hins : x ∈ insert (o.orderid.getD "") known :=
          Finset.mem_insert_of_mem hx
        have hrec := ih (insert (o.orderid.getD "") known) hins
        have hoid : o.orderid = some (o.orderid.getD "") := pyTruthyStr_eq_some ht
        have hhead : (o.orderid == some x) = false := by
          rw [hoid]
          simpa using fun h => hne h
        simp only [detect_new, ht, if_true, hm, if_false]
        by_cases hs : o.status = some "complete"
        · rw [if_pos hs]
          simp only [countOrderId_cons, hhead, Bool.false_eq_true, if_false,
            Nat.add_zero]
          exact hrec
        · rw [if_neg hs]
          exact hrec
    · simp only [detect_new, ht, if_false, Bool.false_eq_true]
      exact ih known hx

lemma detect_new_mem_of_count_pos (snap : List Order) (known : Finset String)
    (x : String) (h : 0 < countOrderId x (detect_new known snap).2) :
    x ∈ (detect_new known snap).1 := by
  induction snap generalizing known with
  | nil => simp [detect_new, countOrderId] at h
  | cons o rest ih =>
    by_cases ht : pyTruthyStr o.orderid = true
    · by_cases hm : o.orderid.getD "" ∈ known
      · simp only [detect_new, ht, if_true, hm] at h ⊢
        exact ih known h
      · have hoid : o.orderid = some (o.orderid.getD "") := pyTruthyStr_eq_some ht
        simp only [detect_new, ht, if_true, hm, if_false] at h ⊢
        by_cases heq : o.orderid.getD "" = x
        · have : x ∈ insert (o.orderid.getD "") known := by
            rw [heq] at *; exact Finset.mem_insert_self _ _
          have := detect_new_known_subset rest
            (insert (o.orderid.getD "") known) this
          by_cases hs : o.status = some "complete" <;>
            simp only [hs, if_true, if_false, reduceIte] <;> exact this
        · have hhead : (o.orderid == some x) = false := by
            rw [hoid]; simpa using fun h => heq h
          by_cases hs : o.status = some "complete" <;>
            simp only [hs, if_true, if_false, reduceIte] at h ⊢
          · rw [countOrderId, List.countP_cons, hhead] at h
            exact ih (insert (o.orderid.getD "") known) (by simpa [countOrderId] using h)
          · exact ih (insert (o.orderid.getD "") known) h
    · simp only [detect_new, ht, if_false, Bool.false_eq_true] at h ⊢
      exact ih known h

lemma detect_new_count_le_one (snap : List Order) (known : Finset String)
    (x : String) :
    countOrderId x (detect_new known snap).2 ≤ 1 := by
  induction snap generalizing known with
  | nil => simp [detect_new, countOrderId]
  | cons o rest ih =>
    by_cases ht : pyTruthyStr o.orderid = true
    · by_cases hm : o.orderid.getD "" ∈ known
      · simp only [detect_new, ht, if_true, hm]
        exact ih known
      · have hoid : o.orderid = some (o.orderid.getD "") := pyTruthyStr_eq_some ht
        simp only [detect_new, ht, if_true, hm, if_false]
        by_cases heq : o.orderid.getD "" = x
        · have hzero : countOrderId x
              (detect_new (insert (o.orderid.getD "") known) rest).2 = 0 := by
            apply detect_new_count_zero_of_mem
            rw [← heq]; exact Finset.mem_insert_self _ _
          by_cases hs : o.status = some "complete"
          · rw [if_pos hs]
            simp only [countOrderId_cons, hzero, Nat.zero_add]
            split <;> omega
          · rw [if_neg hs]
            rw [hzero]
            omega
        · have hhead : (o.orderid == some x) = false := by
            rw [hoid]; simpa using fun h => heq h
          have hrec := ih (insert (o.orderid.getD "") known)
          by_cases hs : o.status = some "complete"
          · rw [if_pos hs]
            simp only [countOrderId_cons, hhead, Bool.false_eq_true, if_false,
              Nat.add_zero]
            exact hrec
          · rw [if_neg hs]
            exact hrec
    · simp only [detect_new, ht, if_false, Bool.false_eq_true]
      exact ih known

lemma run_session_known_subset (snaps : List (Option (List Order)))
    (t : OrderTracker) :
    t.known_master_orders ⊆ (run_session t snaps).1.known_master_orders := by
  induction snaps generalizing t with
  | nil => simp [run_session]
  | cons ob rest ih =>
    cases ob with
    | none =>
      simp only [run_session, check_for_new_orders]
      exact ih t
    | some data =>
      simp only [run_session, check_for_new_orders]
      intro a ha
      exact ih ⟨(detect_new t.known_master_orders data).1⟩
        (detect_new_known_subset data t.known_master_orders ha)

lemma sessionCount_zero_of_mem (snaps : List (Option (List Order)))
    (t : OrderTracker) (x : String) (hx : x ∈ t.known_master_orders) :
    sessionCount t snaps x = 0 := by
  induction snaps generalizing t with
  | nil => simp [sessionCount, run_session]
  | cons ob rest ih =>
    cases ob with
    | none =>
      simp only [sessionCount, run_session, check_for_new_orders, List.map_cons,
        List.sum_cons, countOrderId, List.countP_nil]
      simpa [sessionCount] using ih t hx
    | some data =>
      have h1 := detect_new_count_zero_of_mem data t.known_master_orders x hx
      have h2 : x ∈ (detect_new t.known_master_orders data).1 :=
        detect_new_known_subset data t.known_master_orders hx
      simp only [sessionCount, run_session, check_for_new_orders, List.map_cons,
        List.sum_cons]
      rw [h1]
      simpa [sessionCount] using
        ih { known_master_orders := (detect_new t.known_master_orders data).1 } h2

lemma sessionCount_le_one (snaps : List (Option (List Order)))
    (t : OrderTracker) (x : String) :
    sessionCount t snaps x ≤ 1 := by
  induction snaps generalizing t with
  | nil => simp [sessionCount, run_session]
  | cons ob rest ih =>
    cases ob with
    | none =>
      simp only [sessionCount, run_session, check_for_new_orders, List.map_cons,
        List.sum_cons, countOrderId, List.countP_nil]
      simpa [sessionCount] using ih t
    | some data =>
      simp only [sessionCount, run_session, check_for_new_orders, List.map_cons,
        List.sum_cons]
      by_cases hpos : 0 < countOrderId x (detect_new t.known_master_orders data).2
      · have hmem := detect_new_mem_of_count_pos data t.known_master_orders x hpos
        have hrest :
            sessionCount
              { known_master_orders := (detect_new t.known_master_orders data).1 }
              rest x = 0 :=
          sessionCount_zero_of_mem rest _ x hmem
        have hone := detect_new_count_le_one data t.known_master_orders x
        simp only [sessionCount] at hrest
        omega
      · have hz : countOrderId x (detect_new t.known_master_orders data).2 = 0 := by
          omega
        rw [hz]
        simpa [sessionCount] using
          ih { known_master_orders := (detect_new t.known_master_orders data).1 }

lemma initialize_known_orders_mem (seed : List Order) (o : Order)
    (ho : o ∈ seed) (ht : pyTruthyStr o.orderid = true) :
    o.orderid.getD "" ∈ (initialize_known_orders seed).known_master_orders := by
  suffices h : ∀ acc : Finset String,
      o.orderid.getD "" ∈
        seed.foldl
          (fun acc o =>
            if pyTruthyStr o.orderid then insert (o.orderid.getD "") acc else acc)
          acc by
    exact h ∅
  have hacc : ∀ (l : List Order) (acc : Finset String), acc ⊆
      l.foldl
        (fun acc o =>
          if pyTruthyStr o.orderid then insert (o.orderid.getD "") acc else acc)
        acc := by
    intro l
    induction l with
    | nil => intro acc; simp
    | cons p rest ih =>
      intro acc
      simp only [List.foldl_cons]
      by_cases hp : pyTruthyStr p.orderid = true
      · simp only [hp, if_true]
        exact (Finset.subset_insert _ _).trans (ih _)
      · simp only [hp, Bool.false_eq_true, if_false]
        exact ih _
  intro acc
  induction seed generalizing acc with
  | nil => cases ho
  | cons p rest ih =>
    simp only [List.foldl_cons]
    rcases List.mem_cons.mp ho with heq | hmem
    · subst heq
      simp only [ht, if_true]
      exact hacc rest _ (Finset.mem_insert_self _ _)
    · by_cases hp : pyTruthyStr p.orderid = true <;>
        simp only [hp, if_true, Bool.false_eq_true, if_false] <;>
        exact ih hmem _

lemma pyInt_eq_floor {q : ℚ} (h : 0 ≤ q) : pyInt q = ⌊q⌋ := by
  simp [pyInt, h]

/-- The truthy order ids of a snapshot, in order. -/
def truthyIds (l : List Order) : List String :=
  l.filterMap (fun o => if pyTruthyStr o.orderid then some (o.orderid.getD "") else none)

lemma mem_truthyIds {l : List Order} {o : Order} (ho : o ∈ l)
    (ht : pyTruthyStr o.orderid = true) : o.orderid.getD "" ∈ truthyIds l := by
  apply List.mem_filterMap.mpr
  exact ⟨o, ho, by simp [ht]⟩

lemma detect_new_out_props (snap : List Order) (known : Finset String) :
    ∀ o ∈ (detect_new known snap).2,
      o.status = some "complete" ∧ pyTruthyStr o.orderid = true ∧
        o.orderid.getD "" ∉ known := by
  induction snap generalizing known with
  | nil => simp [detect_new]
  | cons o rest ih =>
    intro p hp
    by_cases ht : pyTruthyStr o.orderid = true
    · by_cases hm : o.orderid.getD "" ∈ known
      · simp only [detect_new, ht, if_true, hm] at hp
        exact ih known p hp
      · simp only [detect_new, ht, if_true, hm, if_false] at hp
        by_cases hs : o.status = some "complete"
        · rw [if_pos hs] at hp
          rcases List.mem_cons.mp hp with heq | hp'
          · subst heq
            exact ⟨hs, ht, hm⟩
          · have := ih (insert (o.orderid.getD "") known) p hp'
            exact ⟨this.1, this.2.1,
              fun hk => this.2.2 (Finset.mem_insert_of_mem hk)⟩
        · rw [if_neg hs] at hp
          have := ih (insert (o.orderid.getD "") known) p hp
          exact ⟨this.1, this.2.1,
            fun hk => this.2.2 (Finset.mem_insert_of_mem hk)⟩
    · simp only [detect_new, ht, if_false, Bool.false_eq_true] at hp
      exact ih known p hp

lemma detect_new_insert_mem (snap : List Order) (known : Finset String)
    (o : Order) (ho : o ∈ snap) (ht : pyTruthyStr o.orderid = true) :
    o.orderid.getD "" ∈ (detect_new known snap).1 := by
  induction snap generalizing known with
  | nil => cases ho
  | cons p rest ih =>
    rcases List.mem_cons.mp ho with heq | hmem
    · subst heq
      by_cases hm : o.orderid.getD "" ∈ known
      · simp only [detect_new, ht, if_true, hm]
        exact detect_new_known_subset rest known hm
      · simp only [detect_new, ht, if_true, hm, if_false]
        have hin : o.orderid.getD "" ∈ insert (o.orderid.getD "") known :=
          Finset.mem_insert_self _ _
        have := detect_new_known_subset rest
          (insert (o.orderid.getD "") known) hin
        by_cases hs : o.status = some "complete"
        · rw [if_pos hs]; exact this
        · rw [if_neg hs]; exact this
    · by_cases hpt : pyTruthyStr p.orderid = true
      · by_cases hm : p.orderid.getD "" ∈ known
        · simp only [detect_new, hpt, if_true, hm]
          exact ih known hmem
        · simp only [detect_new, hpt, if_true, hm, if_false]
          have := ih (insert (p.orderid.getD "") known) hmem
          by_cases hs : p.status = some "complete"
          · rw [if_pos hs]; exact this
          · rw [if_neg hs]; exact this
      · simp only [detect_new, hpt, if_false, Bool.false_eq_true]
        exact ih known hmem

/-- The filter that `check_for_new_orders` implements on a snapshot with
pairwise-distinct truthy ids: keep exactly the orders with a truthy id,
not yet known, whose status is `'complete'`. -/
def newCompleteFilter (known : Finset String) (o : Order) : Bool :=
  pyTruthyStr o.orderid && decide (o.orderid.getD "" ∉ known) &&
    (o.status == some "complete")

lemma detect_new_eq_filter (snap : List Order) (known : Finset String)
    (hnd : (truthyIds snap).Nodup) :
    (detect_new known snap).2 = snap.filter (newCompleteFilter known) := by
  induction snap generalizing known with
  | nil => simp [detect_new]
  | cons o rest ih =>
    by_cases ht : pyTruthyStr o.orderid = true
    · have hids : truthyIds (o :: rest) =
          o.orderid.getD "" :: truthyIds rest := by
        simp [truthyIds, ht]
      rw [hids] at hnd
      have hnotin : o.orderid.getD "" ∉ truthyIds rest :=
        (List.nodup_cons.mp hnd).1
      have hndrest : (truthyIds rest).Nodup := (List.nodup_cons.mp hnd).2
      by_cases hm : o.orderid.getD "" ∈ known
      · simp only [detect_new, ht, if_true, hm]
        have hpred : newCompleteFilter known o = false := by
          simp [newCompleteFilter, hm]
        rw [List.filter_cons_of_neg (by simp [hpred])]
        exact ih known hndrest
      · simp only [detect_new, ht, if_true, hm, if_false]
        have hcongr : rest.filter (newCompleteFilter
              (insert (o.orderid.getD "") known)) =
            rest.filter (newCompleteFilter known) := by
          apply List.filter_congr
          intro p hp
          by_cases hpt : pyTruthyStr p.orderid = true
          · have hne : p.orderid.getD "" ≠ o.orderid.getD "" := by
              intro h
              exact hnotin (h ▸ mem_truthyIds hp hpt)
            simp [newCompleteFilter, hpt, Finset.mem_insert, hne]
          · simp [newCompleteFilter,
              Bool.eq_false_iff.mpr (fun h => hpt h)]
        by_cases hs : o.status = some "complete"
        · rw [if_pos hs]
          have hpred : newCompleteFilter known o = true := by
            simp [newCompleteFilter, ht, hm, hs]
          rw [List.filter_cons_of_pos (by simp [hpred])]
          rw [ih (insert (o.orderid.getD "") known) hndrest, hcongr]
        · rw [if_neg hs]
          have hpred : newCompleteFilter known o = false := by
            simp [newCompleteFilter, hs]
          rw [List.filter_cons_of_neg (by simp [hpred])]
          rw [ih (insert (o.orderid.getD "") known) hndrest, hcongr]
    · have hids : truthyIds (o :: rest) = truthyIds rest := by
        simp [truthyIds, ht]
      rw [hids] at hnd
      have hpred : newCompleteFilter known o = false := by
        simp [newCompleteFilter, Bool.eq_false_iff.mpr (fun h => ht h)]
      simp only [detect_new, ht, if_false, Bool.false_eq_true]
      rw [List.filter_cons_of_neg (by simp [hpred])]
      exact ih known hnd

lemma sp_detect_new_out_truthy (snap : List Order) (known : Finset String) :
    ∀ o ∈ (sp_detect_new known snap).2, pyTruthyStr o.orderid = true := by
  induction snap generalizing known with
  | nil => simp [sp_detect_new]
  | cons o rest ih =>
    intro p hp
    by_cases ht : pyTruthyStr o.orderid = true
    · by_cases hm : o.orderid.getD "" ∈ known
      · simp only [sp_detect_new, ht, if_true, hm] at hp
        exact ih known p hp
      · simp only [sp_detect_new, ht, if_true, hm, if_false] at hp
        rcases List.mem_cons.mp hp with heq | hp'
        · subst heq; exact ht
        · exact ih (insert (o.orderid.getD "") known) p hp'
    · simp only [sp_detect_new, ht, if_false, Bool.false_eq_true] at hp
      exact ih known p hp

lemma detect_new_falsy_skip (snap : List Order) (known : Finset String)
    (o : Order) (h : pyTruthyStr o.orderid = false)
    (pre post : List Order) (hsnap : snap = pre ++ o :: post) :
    detect_new known snap = detect_new known (pre ++ post) := by
  subst hsnap
  induction pre generalizing known with
  | nil =>
    simp only [List.nil_append]
    simp [detect_new, h]
  | cons p pre ih =>
    simp only [List.cons_append]
    by_cases hpt : pyTruthyStr p.orderid = true
    · by_cases hm : p.orderid.getD "" ∈ known
      · simp only [detect_new, hpt, if_true, hm]
        exact ih known
      · simp only [detect_new, hpt, if_true, hm, if_false]
        rw [ih (insert (p.orderid.getD "") known)]
    · simp only [detect_new, hpt, if_false, Bool.false_eq_true]
      exact ih known

lemma sp_detect_new_falsy_skip (snap : List Order) (known : Finset String)
    (o : Order) (h : pyTruthyStr o.orderid = false)
    (pre post : List Order) (hsnap : snap = pre ++ o :: post) :
    sp_detect_new known snap = sp_detect_new known (pre ++ post) := by
  subst hsnap
  induction pre generalizing known with
  | nil =>
    simp only [List.nil_append]
    simp [sp_detect_new, h]
  | cons p pre ih =>
    simp only [List.cons_append]
    by_cases hpt : pyTruthyStr p.orderid = true
    · by_cases hm : p.orderid.getD "" ∈ known
      · simp only [sp_detect_new, hpt, if_true, hm]
        exact ih known
      · simp only [sp_detect_new, hpt, if_true, hm, if_false]
        rw [ih (insert (p.orderid.getD "") known)]
    · simp only [sp_detect_new, hpt, if_false, Bool.false_eq_true]
      exact ih known

/-! ### Claim theorems -/

/-- C1: `is_new_order` returns true exactly when the id is unseen, and
always inserts it; the known set only grows, over a single call and over
a whole session; across any monitoring session every order id is
reported as new at most once, and an id present in the seed snapshot
loaded by `_initialize_known_orders` is never reported at all. -/
theorem C1_order_reported_at_most_once (t : OrderTracker) (oid : String)
    (seed : List Order) (snaps : List (Option (List Order))) (x : String) :
    (t.known_master_orders ⊆ (is_new_order t oid).2.known_master_orders ∧
      oid ∈ (is_new_order t oid).2.known_master_orders) ∧
    ((is_new_order t oid).1 = true ↔ oid ∉ t.known_master_orders) ∧
    (initialize_known_orders seed).known_master_orders ⊆
      (run_session (initialize_known_orders seed) snaps).1.known_master_orders ∧
    sessionCount (initialize_known_orders seed) snaps x ≤ 1 ∧
    (∀ o ∈ seed, pyTruthyStr o.orderid = true →
      sessionCount (initialize_known_orders seed) snaps (o.orderid.getD "")
        = 0) := by
  refine ⟨?_, ?_, ?_, ?_, ?_⟩
  · by_cases h : oid ∈ t.known_master_orders
    · simp [is_new_order, h]
    · simp only [is_new_order, h, if_false]
      exact ⟨Finset.subset_insert _ _, Finset.mem_insert_self _ _⟩
  · by_cases h : oid ∈ t.known_master_orders <;> simp [is_new_order, h]
  · exact run_session_known_subset snaps _
  · exact sessionCount_le_one snaps _ x
  · intro o ho ht
    exact sessionCount_zero_of_mem snaps _ _
      (initialize_known_orders_mem seed o ho ht)

/-- Witness for C1: with seed snapshot `{A}` and one later snapshot
`{A, C}` (both complete), `A` is reported 0 times and `C` at most once —
in fact exactly once, as evaluation shows. -/
theorem C1_order_reported_at_most_once_witness :
    (Order.mk (some "A") none none (some "complete") 0 ∈
        [Order.mk (some "A") none none (some "complete") 0] ∧
      pyTruthyStr (Order.mk (some "A") none none
        (some "complete") 0).orderid = true) ∧
    sessionCount
        (initialize_known_orders
          [Order.mk (some "A") none none (some "complete") 0])
        [some [Order.mk (some "A") none none (some "complete") 0,
               Order.mk (some "C") none none (some "complete") 0]] "A" = 0 ∧
    sessionCount
        (initialize_known_orders
          [Order.mk (some "A") none none (some "complete") 0])
        [some [Order.mk (some "A") none none (some "complete") 0,
               Order.mk (some "C") none none (some "complete") 0]] "C" ≤ 1 := by
  have h := C1_order_reported_at_most_once ⟨∅⟩ "A"
    [Order.mk (some "A") none none (some "complete") 0]
    [some [Order.mk (some "A") none none (some "complete") 0,
           Order.mk (some "C") none none (some "complete") 0]] "C"
  refine ⟨⟨List.mem_singleton.mpr rfl, by decide⟩, ?_, h.2.2.2.1⟩
  have ha := h.2.2.2.2 (Order.mk (some "A") none none (some "complete") 0)
    (List.mem_singleton.mpr rfl) (by decide)
  simpa using ha

/-- C5: `check_for_new_orders` returns, for a snapshot whose truthy
order ids are pairwise distinct, exactly the previously-unseen orders
with status `'complete'` (in general every returned order is unseen and
complete); every truthy id of the snapshot — including those of
non-complete orders — is inserted into the known set, so such an order
is never reported on any later tick; and on seed `{A, B}` with snapshot
`{A, B, C(complete), D(open)}` only `C` is returned while `D` becomes
known. -/
theorem C5_returns_exactly_new_complete_orders (t : OrderTracker)
    (ob : Option (List Order)) (data : List Order) (snaps : List (Option (List Order))) :
    (∀ o ∈ (check_for_new_orders t ob).2,
      o.status = some "complete" ∧ pyTruthyStr o.orderid = true ∧
        o.orderid.getD "" ∉ t.known_master_orders) ∧
    (ob = some data → (truthyIds data).Nodup →
      (check_for_new_orders t ob).2 =
        data.filter (newCompleteFilter t.known_master_orders)) ∧
    (ob = some data → ∀ o ∈ data, pyTruthyStr o.orderid = true →
      o.orderid.getD "" ∈ (check_for_new_orders t ob).1.known_master_orders ∧
      sessionCount (check_for_new_orders t ob).1 snaps (o.orderid.getD "")
        = 0) := by
  refine ⟨?_, ?_, ?_⟩
  · intro o ho
    cases ob with
    | none => simp [check_for_new_orders] at ho
    | some d =>
      simp only [check_for_new_orders] at ho ⊢
      exact detect_new_out_props d t.known_master_orders o ho
  · rintro rfl hnd
    simp only [check_for_new_orders]
    exact detect_new_eq_filter data t.known_master_orders hnd
  · rintro rfl o ho ht
    have hmem : o.orderid.getD "" ∈
        (detect_new t.known_master_orders data).1 :=
      detect_new_insert_mem data t.known_master_orders o ho ht
    exact ⟨hmem, sessionCount_zero_of_mem snaps _ _ hmem⟩

/-- Witness for C5: the end-to-end scenario of the spec — seed `{A, B}`,
snapshot `{A, B, C(complete), D(open)}` — returns exactly `[C]`, and
`D`'s id is in the known set afterwards. -/
theorem C5_returns_exactly_new_complete_orders_witness :
    (truthyIds
        [Order.mk (some "A") none none (some "complete") 0,
         Order.mk (some "B") none none (some "complete") 0,
         Order.mk (some "C") none none (some "complete") 0,
         Order.mk (some "D") none none (some "open") 0]).Nodup ∧
    (check_for_new_orders
        (initialize_known_orders
          [Order.mk (some "A") none none (some "complete") 0,
           Order.mk (some "B") none none (some "complete") 0])
        (some
          [Order.mk (some "A") none none (some "complete") 0,
           Order.mk (some "B") none none (some "complete") 0,
           Order.mk (some "C") none none (some "complete") 0,
           Order.mk (some "D") none none (some "open") 0])).2 =
      [Order.mk (some "C") none none (some "complete") 0] ∧
    "D" ∈ (check_for_new_orders
        (initialize_known_orders
          [Order.mk (some "A") none none (some "complete") 0,
           Order.mk (some "B") none none (some "complete") 0])
        (some
          [Order.mk (some "A") none none (some "complete") 0,
           Order.mk (some "B") none none (some "complete") 0,
           Order.mk (some "C") none none (some "complete") 0,
           Order.mk (some "D") none none (some "open") 0])).1.known_master_orders := by
  have h := C5_returns_exactly_new_complete_orders
    (initialize_known_orders
      [Order.mk (some "A") none none (some "complete") 0,
       Order.mk (some "B") none none (some "complete") 0])
    (some
      [Order.mk (some "A") none none (some "complete") 0,
       Order.mk (some "B") none none (some "complete") 0,
       Order.mk (some "C") none none (some "complete") 0,
       Order.mk (some "D") none none (some "open") 0])
    [Order.mk (some "A") none none (some "complete") 0,
     Order.mk (some "B") none none (some "complete") 0,
     Order.mk (some "C") none none (some "complete") 0,
     Order.mk (some "D") none none (some "open") 0] []
  refine ⟨by decide, ?_, ?_⟩
  · rw [h.2.1 rfl (by decide)]
    decide
  · exact (h.2.2 rfl (Order.mk (some "D") none none (some "open") 0)
      (by decide) (by decide)).1

/-- C8: an order whose `orderid` is `None` or the empty string is
ignored entirely by both order-detection loops: deleting it from the
snapshot changes nothing (so it is never added to the known set), and no
returned order ever has a falsy id. -/
theorem C8_falsy_order_ids_ignored (known : Finset String) (o : Order)
    (pre post snap : List Order) (h : pyTruthyStr o.orderid = false) :
    (detect_new known (pre ++ o :: post) = detect_new known (pre ++ post)) ∧
    (sp_detect_new known (pre ++ o :: post) =
      sp_detect_new known (pre ++ post)) ∧
    (∀ p ∈ (detect_new known snap).2, pyTruthyStr p.orderid = true) ∧
    (∀ p ∈ (sp_detect_new known snap).2, pyTruthyStr p.orderid = true) := by
  refine ⟨detect_new_falsy_skip _ known o h pre post rfl,
    sp_detect_new_falsy_skip _ known o h pre post rfl, ?_,
    sp_detect_new_out_truthy snap known⟩
  intro p hp
  exact (detect_new_out_props snap known p hp).2.1

/-- Witness for C8: an order with id `''` between two real orders is
ignored by both loops. -/
theorem C8_falsy_order_ids_ignored_witness :
    pyTruthyStr (Order.mk (some "") none none (some "complete") 0).orderid
      = false ∧
    detect_new ∅
        [Order.mk (some "A") none none (some "complete") 0,
         Order.mk (some "") none none (some "complete") 0,
         Order.mk (some "B") none none (some "complete") 0] =
      detect_new ∅
        [Order.mk (some "A") none none (some "complete") 0,
         Order.mk (some "B") none none (some "complete") 0] := by
  refine ⟨by decide, ?_⟩
  exact (C8_falsy_order_ids_ignored ∅
    (Order.mk (some "") none none (some "complete") 0)
    [Order.mk (some "A") none none (some "complete") 0]
    [Order.mk (some "B") none none (some "complete") 0] [] (by decide)).1

/-- C3: `calculate_follower_quantity` returns the configured fixed
quantity verbatim (independently of the master quantity) whenever
`use_fixed_quantity` is true and a fixed quantity is set (a truthy
value, i.e. neither `None` nor `0`), and otherwise returns
`floor(masterQty * multiplier)` (for the non-negative quantities and
multipliers the monitor works with); in particular master quantity 100
with multiplier 0.5 gives 50, and fixed quantity 25 gives 25. -/
theorem C3_calculate_follower_quantity (s : CopyTradingSettings) (q : Int) :
    (s.use_fixed_quantity = true → pyTruthyInt s.fixed_quantity = true →
      ∀ n : Int, s.fixed_quantity = some n →
        calculate_follower_quantity s q = n) ∧
    ((s.use_fixed_quantity = false ∨ pyTruthyInt s.fixed_quantity = false) →
      0 ≤ s.quantity_multiplier → 0 ≤ q →
      calculate_follower_quantity s q = ⌊(q : ℚ) * s.quantity_multiplier⌋) ∧
    calculate_follower_quantity { quantity_multiplier := 1 / 2 } 100 = 50 ∧
    calculate_follower_quantity
      { use_fixed_quantity := true, fixed_quantity := some 25 } 100 = 25 := by
  refine ⟨?_, ?_, ?_, ?_⟩
  · intro hu ht n hn
    rw [hn] at ht
    simp [calculate_follower_quantity, hu, hn, ht]
  · intro h hm hq
    have hnn : (0 : ℚ) ≤ (q : ℚ) * s.quantity_multiplier := by
      have : (0 : ℚ) ≤ (q : ℚ) := by exact_mod_cast hq
      exact mul_nonneg this hm
    rcases h with h | h <;>
      simp [calculate_follower_quantity, h, pyInt_eq_floor hnn]
  · have h1 : ((100 : Int) : ℚ) * (1 / 2) = 50 := by norm_num
    simp only [calculate_follower_quantity, pyTruthyInt]
    norm_num [pyInt]
  · simp [calculate_follower_quantity, pyTruthyInt]

/-- Witness for C3 at concrete settings: multiplier 3/4 on master
quantity 8 gives `floor(6) = 6` through the non-fixed branch, and a
truthy fixed quantity 7 is returned verbatim. -/
theorem C3_calculate_follower_quantity_witness :
    ((({ quantity_multiplier := 3 / 4 } : CopyTradingSettings).use_fixed_quantity
        = false ∨
      pyTruthyInt ({ quantity_multiplier := 3 / 4 } :
        CopyTradingSettings).fixed_quantity = false) ∧
      calculate_follower_quantity { quantity_multiplier := 3 / 4 } 8 = 6) ∧
    (({ use_fixed_quantity := true, fixed_quantity := some 7 } :
        CopyTradingSettings).use_fixed_quantity = true ∧
      calculate_follower_quantity
        { use_fixed_quantity := true, fixed_quantity := some 7 } 100 = 7) := by
  constructor
  · refine ⟨Or.inl rfl, ?_⟩
    have h := (C3_calculate_follower_quantity
      { quantity_multiplier := 3 / 4 } 8).2.1 (Or.inl rfl) (by norm_num)
      (by norm_num)
    rw [h, show ((8 : Int) : ℚ) * (3 / 4) = 6 by norm_num,
      show ((6 : ℚ)) = ((6 : Int) : ℚ) by norm_num, Int.floor_intCast]
  · refine ⟨rfl, ?_⟩
    exact (C3_calculate_follower_quantity
      { use_fixed_quantity := true, fixed_quantity := some 7 } 100).1 rfl
      (by norm_num [pyTruthyInt]) 7 rfl

/-- C4: `should_copy_order` is a deterministic function of the policy
and of the only two order fields it reads (symbol and order type), its
rejection rules fire in the fixed order blocked-symbols, allow-list,
market, limit, stop — short-circuiting on the first match — and a
blocked symbol always yields the blocked-symbol reason, also when the
symbol is absent from the allow-list. -/
theorem C4_should_copy_order_precedence (s : CopyTradingSettings) (o o' : Order) :
    (o.tradingsymbol = o'.tradingsymbol → o.ordertype = o'.ordertype →
      should_copy_order s o = should_copy_order s o') ∧
    (o.tradingsymbol.getD "" ∈ s.blocked_symbols →
      should_copy_order s o =
        (false, "Symbol " ++ o.tradingsymbol.getD "" ++ " is blocked")) ∧
    (o.tradingsymbol.getD "" ∉ s.blocked_symbols →
      s.copy_all_orders = false →
      o.tradingsymbol.getD "" ∉ s.allowed_symbols →
      should_copy_order s o =
        (false, "Symbol " ++ o.tradingsymbol.getD "" ++ " not in allowed list")) ∧
    (o.tradingsymbol.getD "" ∉ s.blocked_symbols →
      (s.copy_all_orders = true ∨ o.tradingsymbol.getD "" ∈ s.allowed_symbols) →
      (o.ordertype.getD "").toUpper = "MARKET" →
      s.copy_market_orders = false →
      should_copy_order s o = (false, "Market orders disabled")) ∧
    (o.tradingsymbol.getD "" ∉ s.blocked_symbols →
      (s.copy_all_orders = true ∨ o.tradingsymbol.getD "" ∈ s.allowed_symbols) →
      (o.ordertype.getD "").toUpper = "LIMIT" →
      s.copy_limit_orders = false →
      should_copy_order s o = (false, "Limit orders disabled")) ∧
    (o.tradingsymbol.getD "" ∉ s.blocked_symbols →
      (s.copy_all_orders = true ∨ o.tradingsymbol.getD "" ∈ s.allowed_symbols) →
      ((o.ordertype.getD "").toUpper = "STOPLOSS" ∨
        (o.ordertype.getD "").toUpper = "STOPLOSS_MARKET") →
      s.copy_stop_orders = false →
      should_copy_order s o = (false, "Stop orders disabled")) := by
  refine ⟨?_, ?_, ?_, ?_, ?_, ?_⟩
  · intro h1 h2
    simp [should_copy_order, h1, h2]
  · intro hb
    simp [should_copy_order, hb]
  · intro hb hc ha
    simp [should_copy_order, hb, hc, ha]
  · intro hb hc hm hcm
    rcases hc with hc | hc <;>
      simp [should_copy_order, hb, hc, hm, hcm]
  · intro hb hc hm hcm
    rcases hc with hc | hc <;>
      rcases Decidable.em (s.copy_market_orders = true) with hq | hq <;>
      simp [should_copy_order, hb, hc, hm, hcm, hq]
  · intro hb hc hm hcm
    rcases hc with hc | hc <;>
      rcases hm with hm | hm <;>
      simp [should_copy_order, hb, hc, hm, hcm]

/-- Witness for C4: a symbol that is blocked and also absent from the
allow-list is rejected with the blocked-symbol reason. -/
theorem C4_should_copy_order_precedence_witness :
    ((Order.mk none (some "TCS") (some "MARKET") none 0).tradingsymbol.getD ""
        ∈ ({ blocked_symbols := ["TCS"], copy_all_orders := false,
             copy_market_orders := false } : CopyTradingSettings).blocked_symbols) ∧
    should_copy_order
      { blocked_symbols := ["TCS"], copy_all_orders := false,
        copy_market_orders := false }
      (Order.mk none (some "TCS") (some "MARKET") none 0) =
      (false, "Symbol TCS is blocked") := by
  refine ⟨by decide, ?_⟩
  exact (C4_should_copy_order_precedence
    { blocked_symbols := ["TCS"], copy_all_orders := false,
      copy_market_orders := false }
    (Order.mk none (some "TCS") (some "MARKET") none 0)
    (Order.mk none (some "TCS") (some "MARKET") none 0)).2.1 (by decide)

/-- C9: calling `initialize_session` on an already-initialized client
returns success at once, with zero login attempts against the broker,
no waits, and an unchanged session state. -/
theorem C9_initialize_session_idempotent (st : MAClientState)
    (oracle : Nat → LoginResult) (info : SessionInfo) (mr bd : Nat)
    (h : st.is_initialized = true) :
    initialize_session st oracle info mr bd = ⟨true, st, [], 0⟩ := by
  simp [initialize_session, h]

/-- Witness for C9 at a concrete initialized state: the broker oracle
would fail every attempt, yet the call returns success untouched. -/
theorem C9_initialize_session_idempotent_witness :
    (MAClientState.mk (some "sess") (some "feed") (some "t0") true).is_initialized
      = true ∧
    initialize_session
      (MAClientState.mk (some "sess") (some "feed") (some "t0") true)
      (fun _ => LoginResult.otherError) ⟨"s", "f", "t"⟩ 3 60 =
      ⟨true, MAClientState.mk (some "sess") (some "feed") (some "t0") true,
        [], 0⟩ :=
  ⟨rfl, C9_initialize_session_idempotent _ _ _ 3 60 rfl⟩

/-- C10: on a client whose `is_initialized` flag is false, each of
`place_order`, `get_order_book` and `get_trade_book` raises without
invoking the wrapped SDK and leaves the client state unchanged. -/
theorem C10_uninitialized_calls_raise {α : Type} (st : MAClientState)
    (name : String) (sdk : Except String α) (h : st.is_initialized = false) :
    place_order st name sdk =
      ⟨Except.error ("Client " ++ name ++ " not initialized"), st, false⟩ ∧
    get_order_book st name sdk =
      ⟨Except.error ("Client " ++ name ++ " not initialized"), st, false⟩ ∧
    get_trade_book st name sdk =
      ⟨Except.error ("Client " ++ name ++ " not initialized"), st, false⟩ := by
  refine ⟨?_, ?_, ?_⟩ <;> simp [place_order, get_order_book, get_trade_book, h]

/-- Witness for C10 on a fresh (default) client state and an SDK that
would have answered successfully. -/
theorem C10_uninitialized_calls_raise_witness :
    ({} : MAClientState).is_initialized = false ∧
    place_order ({} : MAClientState) "FOLLOWER_1"
        (Except.ok ([] : List Order)) =
      ⟨Except.error "Client FOLLOWER_1 not initialized", {}, false⟩ := by
  refine ⟨rfl, ?_⟩
  exact (C10_uninitialized_calls_raise ({} : MAClientState) "FOLLOWER_1"
    (Except.ok ([] : List Order)) rfl).1

lemma check_rate_limit_preserves (st : SmartPollingState) (now : ℚ) :
    (check_rate_limit st now).1.consecutive_rate_limits
        = st.consecutive_rate_limits ∧
    (check_rate_limit st now).1.backoff_until = st.backoff_until ∧
    (check_rate_limit st now).1.known_order_ids = st.known_order_ids ∧
    (check_rate_limit st now).1.max_calls_per_minute
        = st.max_calls_per_minute := by
  simp only [check_rate_limit]
  split_ifs <;> simp

/-- C7: when the per-minute counter has reached the ceiling before 60
seconds have elapsed since the window start, `_check_rate_limit` sleeps
for the remaining window time plus a 1-second buffer and then resets the
counter and the window start (to the post-sleep clock); when the counter
is below the ceiling the call proceeds with no sleep (and, if the window
has not elapsed either, with no state change at all); when the window
has already elapsed the counter and window start are reset and the call
proceeds with no sleep. -/
theorem C7_rate_limit_window (st : SmartPollingState) (now : ℚ) :
    (st.max_calls_per_minute ≤ st.api_calls_count →
      now - st.api_calls_window_start < 60 →
      (check_rate_limit st now).2 =
        (60 - (now - st.api_calls_window_start)) + 1 ∧
      (check_rate_limit st now).1 =
        { st with api_calls_count := 0,
                  api_calls_window_start :=
                    now + ((60 - (now - st.api_calls_window_start)) + 1) }) ∧
    (st.api_calls_count < st.max_calls_per_minute →
      (check_rate_limit st now).2 = 0 ∧
      (now - st.api_calls_window_start < 60 →
        (check_rate_limit st now).1 = st)) ∧
    (60 ≤ now - st.api_calls_window_start → 0 < st.max_calls_per_minute →
      (check_rate_limit st now).2 = 0 ∧
      (check_rate_limit st now).1 =
        { st with api_calls_count := 0, api_calls_window_start := now }) := by
  refine ⟨?_, ?_, ?_⟩
  · intro hceil hwin
    have hne : ¬ (60 ≤ now - st.api_calls_window_start) := by linarith
    have hpos : (0 : ℚ) < 60 - (now - st.api_calls_window_start) := by linarith
    simp only [check_rate_limit, hne, if_false, hceil, if_true, hpos]
    simp
  · intro hlt
    constructor
    · by_cases hw : 60 ≤ now - st.api_calls_window_start
      · have h0 : ¬ (st.max_calls_per_minute ≤ 0) := by omega
        simp [check_rate_limit, hw, h0]
      · have hnc : ¬ (st.max_calls_per_minute ≤ st.api_calls_count) := by
          omega
        simp [check_rate_limit, hw, hnc]
    · intro hwin
      have hne : ¬ (60 ≤ now - st.api_calls_window_start) := by linarith
      have hnc : ¬ (st.max_calls_per_minute ≤ st.api_calls_count) := by omega
      simp [check_rate_limit, hne, hnc]
  · intro hwin hpos
    have hnc : ¬ (st.max_calls_per_minute ≤ (0 : Nat)) := by omega
    simp [check_rate_limit, hwin, hnc]

/-- Witness for C7: with ceiling 10, a full window started 30 s ago
makes the call sleep 31 s and reset; a below-ceiling counter inside the
window changes nothing; an elapsed window resets without sleeping. -/
theorem C7_rate_limit_window_witness :
    ((10 : Nat) ≤ (SmartPollingState.mk ∅ 10 1000 10 0 none).api_calls_count ∧
      (1030 : ℚ) - 1000 < 60 ∧
      (check_rate_limit (SmartPollingState.mk ∅ 10 1000 10 0 none) 1030).2
        = 31 ∧
      (check_rate_limit (SmartPollingState.mk ∅ 10 1000 10 0 none)
          1030).1.api_calls_window_start = 1061) ∧
    ((check_rate_limit (SmartPollingState.mk ∅ 3 1000 10 0 none) 1030).1 =
        SmartPollingState.mk ∅ 3 1000 10 0 none) ∧
    ((check_rate_limit (SmartPollingState.mk ∅ 10 1000 10 0 none) 1100).1 =
        SmartPollingState.mk ∅ 0 1100 10 0 none ∧
      (check_rate_limit (SmartPollingState.mk ∅ 10 1000 10 0 none) 1100).2
        = 0) := by
  have h1 := (C7_rate_limit_window (SmartPollingState.mk ∅ 10 1000 10 0 none)
    1030).1 (by norm_num) (by norm_num)
  have h2 := (C7_rate_limit_window (SmartPollingState.mk ∅ 3 1000 10 0 none)
    1030).2.1 (by norm_num)
  have h3 := (C7_rate_limit_window (SmartPollingState.mk ∅ 10 1000 10 0 none)
    1100).2.2 (by norm_num) (by norm_num)
  refine ⟨⟨by norm_num, by norm_num, ?_, ?_⟩, h2.2 (by norm_num), ?_, h3.1⟩
  · rw [h1.1]; norm_num
  · rw [h1.2]; norm_num
  · rw [h3.2]

/-- C2: while the stored backoff deadline is truthy and the current time
is before it, every poll short-circuits to the empty list without
calling the broker and without touching the state; outside a backoff, a
server-reported throttling error increments the consecutive-throttle
counter to `n` and sets the deadline to
`now + min (60 * 2 ^ (n - 1)) 300` seconds (measured after any
rate-limit sleep), returning no orders; and any successful order-book
call resets the counter to 0 and clears the deadline. -/
theorem C2_throttle_backoff (st : SmartPollingState) (now b : ℚ)
    (f : FetchOutcome) (d : Option (List Order)) :
    (st.backoff_until = some b → b ≠ 0 → now < b →
      sp_check_for_new_orders st now f = ⟨st, [], false, 0⟩) ∧
    (¬(pyTruthyRat st.backoff_until = true ∧
        now < st.backoff_until.getD 0) →
      (sp_check_for_new_orders st now (FetchOutcome.exn true)).state.consecutive_rate_limits
          = st.consecutive_rate_limits + 1 ∧
      (sp_check_for_new_orders st now (FetchOutcome.exn true)).state.backoff_until
          = some ((now +
              (sp_check_for_new_orders st now (FetchOutcome.exn true)).slept) +
            min (60 * 2 ^ st.consecutive_rate_limits) 300) ∧
      (sp_check_for_new_orders st now
          (FetchOutcome.exn true)).new_orders = []) ∧
    (¬(pyTruthyRat st.backoff_until = true ∧
        now < st.backoff_until.getD 0) →
      (sp_check_for_new_orders st now
          (FetchOutcome.ok d)).state.consecutive_rate_limits = 0 ∧
      (sp_check_for_new_orders st now
          (FetchOutcome.ok d)).state.backoff_until = none) := by
  refine ⟨?_, ?_, ?_⟩
  · intro hb hb0 hnow
    have hg : pyTruthyRat st.backoff_until = true ∧
        now < st.backoff_until.getD 0 := by
      rw [hb]
      exact ⟨by simp [pyTruthyRat, hb0], by simpa using hnow⟩
    simp only [sp_check_for_new_orders, hg, and_self, if_true]
  · intro hg
    have hp := check_rate_limit_preserves st now
    simp only [sp_check_for_new_orders, hg, if_false]
    simp [hp.1]
  · intro hg
    have hp := check_rate_limit_preserves st now
    simp only [sp_check_for_new_orders, hg, if_false]
    cases d <;> simp

/-- Witness for C2: from a clean state at time 1000 (window started at
1000, counter 0), consecutive throttles produce deadlines 60, 120, 240
and then capped 300 seconds ahead; a poll at time 1000 against a
deadline of 1060 short-circuits; and a successful call from a throttled
state clears the backoff. -/
theorem C2_throttle_backoff_witness :
    ((SmartPollingState.mk ∅ 0 1000 10 0 none).backoff_until = none ∧
      (sp_check_for_new_orders (SmartPollingState.mk ∅ 0 1000 10 0 none)
          1000 (FetchOutcome.exn true)).state.backoff_until = some 1060 ∧
      (sp_check_for_new_orders (SmartPollingState.mk ∅ 0 1000 10 1 none)
          1000 (FetchOutcome.exn true)).state.backoff_until = some 1120 ∧
      (sp_check_for_new_orders (SmartPollingState.mk ∅ 0 1000 10 2 none)
          1000 (FetchOutcome.exn true)).state.backoff_until = some 1240 ∧
      (sp_check_for_new_orders (SmartPollingState.mk ∅ 0 1000 10 3 none)
          1000 (FetchOutcome.exn true)).state.backoff_until = some 1300 ∧
      (sp_check_for_new_orders (SmartPollingState.mk ∅ 0 1000 10 7 none)
          1000 (FetchOutcome.exn true)).state.backoff_until = some 1300) ∧
    ((1000 : ℚ) < 1060 ∧
      sp_check_for_new_orders
          (SmartPollingState.mk ∅ 0 1000 10 1 (some 1060)) 1000
          (FetchOutcome.ok none) =
        ⟨SmartPollingState.mk ∅ 0 1000 10 1 (some 1060), [], false, 0⟩) ∧
    ((sp_check_for_new_orders (SmartPollingState.mk ∅ 0 1000 10 3 none)
          1000 (FetchOutcome.ok none)).state.consecutive_rate_limits = 0 ∧
      (sp_check_for_new_orders (SmartPollingState.mk ∅ 0 1000 10 3 none)
          1000 (FetchOutcome.ok none)).state.backoff_until = none) := by
  have hng : ∀ n : Nat, ¬(pyTruthyRat
      (SmartPollingState.mk ∅ 0 1000 10 n none).backoff_until = true ∧
      (1000 : ℚ) < (SmartPollingState.mk ∅ 0 1000 10 n none).backoff_until.getD 0) := by
    intro n h
    simpa [pyTruthyRat] using h.1
  have hslept : ∀ n : Nat,
      (sp_check_for_new_orders (SmartPollingState.mk ∅ 0 1000 10 n none)
        1000 (FetchOutcome.exn true)).slept = 0 := by
    intro n
    simp [sp_check_for_new_orders, pyTruthyRat, check_rate_limit]
  have hthr : ∀ n : Nat,
      (sp_check_for_new_orders (SmartPollingState.mk ∅ 0 1000 10 n none)
          1000 (FetchOutcome.exn true)).state.backoff_until =
        some (1000 + min (60 * 2 ^ n) 300) := by
    intro n
    have h := (C2_throttle_backoff (SmartPollingState.mk ∅ 0 1000 10 n none)
      1000 0 (FetchOutcome.exn true) none).2.1 (hng n)
    rw [h.2.1, hslept n]
    norm_num
  refine ⟨⟨rfl, ?_, ?_, ?_, ?_, ?_⟩, ⟨by norm_num, ?_⟩, ?_⟩
  · rw [hthr 0]; norm_num
  · rw [hthr 1]; norm_num
  · rw [hthr 2]; norm_num
  · rw [hthr 3]; norm_num [min_def]
  · rw [hthr 7]; norm_num [min_def]
  · exact (C2_throttle_backoff
      (SmartPollingState.mk ∅ 0 1000 10 1 (some 1060)) 1000 1060
      (FetchOutcome.ok none) none).1 rfl (by norm_num) (by norm_num)
  · exact (C2_throttle_backoff (SmartPollingState.mk ∅ 0 1000 10 3 none)
      1000 0 (FetchOutcome.ok none) none).2.2 (hng 3)

/-- The client state after a successful login: session data, feed token
and session time populated, `is_initialized` set. -/
def loginState (st : MAClientState) (info : SessionInfo) : MAClientState :=
  { st with session_data := some info.session_data,
            feed_token := some info.feed_token,
            session_time := some info.session_time,
            is_initialized := true }

lemma initSessionLoop_success (oracle : Nat → LoginResult)
    (info : SessionInfo) (mr bd : Nat) :
    ∀ (k rc : Nat) (st : MAClientState),
      (∀ i, i < k → oracle (rc + i) = LoginResult.throttle) →
      oracle (rc + k) = LoginResult.success → rc + k < mr →
      initSessionLoop oracle info mr bd (mr - rc) rc st =
        ⟨true, loginState st info,
          (List.range k).map (fun i => bd * (rc + i + 1)), k + 1⟩ := by
  intro k
  induction k with
  | zero =>
    intro rc st hthr hsucc hlt
    rw [Nat.add_zero] at hsucc
    have h1 : mr - rc = (mr - (rc + 1)) + 1 := by omega
    rw [h1]
    simp only [initSessionLoop, hsucc]
    simp [loginState]
  | succ k ih =>
    intro rc st hthr hsucc hlt
    have hthis : oracle rc = LoginResult.throttle := by
      simpa using hthr 0 (Nat.succ_pos k)
    have h1 : mr - rc = (mr - (rc + 1)) + 1 := by omega
    rw [h1]
    simp only [initSessionLoop, hthis]
    have hguard : rc + 1 < mr := by omega
    rw [if_pos hguard]
    have h2 : mr - (rc + 1) = mr - (rc + 1) := rfl
    have ihh := ih (rc + 1) st
      (fun i hi => by
        have := hthr (i + 1) (by omega)
        simpa [Nat.add_comm, Nat.add_left_comm, Nat.add_assoc] using this)
      (by
        have : rc + 1 + k = rc + (k + 1) := by omega
        rw [this]; exact hsucc)
      (by omega)
    rw [ihh]
    simp only [List.range_succ_eq_map, List.map_cons, List.map_map,
      Nat.add_zero, InitResult.mk.injEq, true_and]
    refine ⟨?_, trivial⟩
    congr 1
    apply List.map_congr_left
    intro i _
    simp only [Function.comp_apply]
    congr 1
    omega

lemma initSessionLoop_other (oracle : Nat → LoginResult)
    (info : SessionInfo) (mr bd : Nat) :
    ∀ (k rc : Nat) (st : MAClientState),
      (∀ i, i < k → oracle (rc + i) = LoginResult.throttle) →
      oracle (rc + k) = LoginResult.otherError → rc + k < mr →
      initSessionLoop oracle info mr bd (mr - rc) rc st =
        ⟨false, st, (List.range k).map (fun i => bd * (rc + i + 1)), k + 1⟩ := by
  intro k
  induction k with
  | zero =>
    intro rc st hthr herr hlt
    rw [Nat.add_zero] at herr
    have h1 : mr - rc = (mr - (rc + 1)) + 1 := by omega
    rw [h1]
    simp only [initSessionLoop, herr]
    simp
  | succ k ih =>
    intro rc st hthr herr hlt
    have hthis : oracle rc = LoginResult.throttle := by
      simpa using hthr 0 (Nat.succ_pos k)
    have h1 : mr - rc = (mr - (rc + 1)) + 1 := by omega
    rw [h1]
    simp only [initSessionLoop, hthis]
    have hguard : rc + 1 < mr := by omega
    rw [if_pos hguard]
    have ihh := ih (rc + 1) st
      (fun i hi => by
        have := hthr (i + 1) (by omega)
        simpa [Nat.add_comm, Nat.add_left_comm, Nat.add_assoc] using this)
      (by
        have : rc + 1 + k = rc + (k + 1) := by omega
        rw [this]; exact herr)
      (by omega)
    rw [ihh]
    simp only [List.range_succ_eq_map, List.map_cons, List.map_map,
      Nat.add_zero, InitResult.mk.injEq, true_and]
    refine ⟨?_, trivial⟩
    congr 1
    apply List.map_congr_left
    intro i _
    simp only [Function.comp_apply]
    congr 1
    omega

lemma initSessionLoop_allThrottle (oracle : Nat → LoginResult)
    (info : SessionInfo) (mr bd : Nat) :
    ∀ (n rc : Nat) (st : MAClientState), n = mr - rc → rc < mr →
      (∀ i, rc ≤ i → i < mr → oracle i = LoginResult.throttle) →
      initSessionLoop oracle info mr bd n rc st =
        ⟨false, st,
          (List.range (mr - 1 - rc)).map (fun i => bd * (rc + i + 1)),
          mr - rc⟩ := by
  intro n
  induction n with
  | zero =>
    intro rc st hn hlt hthr
    omega
  | succ n ih =>
    intro rc st hn hlt hthr
    have hthis : oracle rc = LoginResult.throttle := hthr rc le_rfl hlt
    simp only [initSessionLoop, hthis]
    by_cases hguard : rc + 1 < mr
    · rw [if_pos hguard]
      have ihh := ih (rc + 1) st (by omega) hguard
        (fun i h1 h2 => hthr i (by omega) h2)
      rw [ihh]
      have hr : mr - 1 - rc = (mr - 1 - (rc + 1)) + 1 := by omega
      rw [hr]
      simp only [List.range_succ_eq_map, List.map_cons, List.map_map,
        Nat.add_zero, InitResult.mk.injEq, true_and]
      refine ⟨?_, by omega⟩
      congr 1
      apply List.map_congr_left
      intro i _
      simp only [Function.comp_apply]
      congr 1
      omega
    · rw [if_neg hguard]
      have hr : mr - 1 - rc = 0 := by omega
      have ha : mr - rc = 1 := by omega
      rw [hr, ha]
      simp

/-- C6: starting from an uninitialized client, `initialize_session`
retries only on throttling-class errors, sleeping `base_delay * attempt`
seconds before the attempt-th retry (linear backoff); after `k` initial
throttles a success on attempt `k + 1` yields the initialized state with
waits `base_delay * 1, …, base_delay * k`; a non-throttling error stops
the loop at once — no further attempts and no wait after it; and all-
throttling runs stop after exactly `max_retries` attempts. -/
theorem C6_initialize_session_retry_policy (st : MAClientState)
    (oracle : Nat → LoginResult) (info : SessionInfo) (mr bd k : Nat)
    (hinit : st.is_initialized = false) :
    ((∀ i, i < k → oracle i = LoginResult.throttle) →
      oracle k = LoginResult.success → k < mr →
      initialize_session st oracle info mr bd =
        ⟨true, loginState st info,
          (List.range k).map (fun i => bd * (i + 1)), k + 1⟩) ∧
    ((∀ i, i < k → oracle i = LoginResult.throttle) →
      oracle k = LoginResult.otherError → k < mr →
      initialize_session st oracle info mr bd =
        ⟨false, st, (List.range k).map (fun i => bd * (i + 1)), k + 1⟩) ∧
    ((∀ i, i < mr → oracle i = LoginResult.throttle) → 0 < mr →
      initialize_session st oracle info mr bd =
        ⟨false, st, (List.range (mr - 1)).map (fun i => bd * (i + 1)),
          mr⟩) := by
  have hmaps : ∀ m : Nat, (List.range m).map (fun i => bd * (0 + i + 1)) =
      (List.range m).map (fun i => bd * (i + 1)) := by
    intro m
    apply List.map_congr_left
    intro i _
    congr 1
    omega
  refine ⟨?_, ?_, ?_⟩
  · intro hthr hsucc hlt
    have h := initSessionLoop_success oracle info mr bd k 0 st
      (fun i hi => by simpa using hthr i hi) (by simpa using hsucc)
      (by omega)
    rw [Nat.sub_zero] at h
    rw [initialize_session, if_neg (by simp [hinit]), h, hmaps k]
  · intro hthr herr hlt
    have h := initSessionLoop_other oracle info mr bd k 0 st
      (fun i hi => by simpa using hthr i hi) (by simpa using herr)
      (by omega)
    rw [Nat.sub_zero] at h
    rw [initialize_session, if_neg (by simp [hinit]), h, hmaps k]
  · intro hthr hpos
    have h := initSessionLoop_allThrottle oracle info mr bd mr 0 st
      (by omega) hpos (fun i _ h2 => hthr i h2)
    rw [initialize_session, if_neg (by simp [hinit]), h]
    simp only [Nat.sub_zero, hmaps (mr - 1)]

/-- Witness for C6: with `max_retries = 3` and `base_delay = 60`, two
throttles then a success give waits `[60, 120]` and 3 attempts; an
immediate non-throttling error gives no wait and a single attempt; three
straight throttles stop after 3 attempts with waits `[60, 120]`. -/
theorem C6_initialize_session_retry_policy_witness :
    (({} : MAClientState).is_initialized = false ∧
      (∀ i, i < 2 →
        (fun j => if j < 2 then LoginResult.throttle else LoginResult.success) i
          = LoginResult.throttle) ∧
      initialize_session {}
          (fun j => if j < 2 then LoginResult.throttle else LoginResult.success)
          ⟨"s", "f", "t"⟩ 3 60 =
        ⟨true, loginState {} ⟨"s", "f", "t"⟩, [60, 120], 3⟩) ∧
    initialize_session {} (fun _ => LoginResult.otherError)
        ⟨"s", "f", "t"⟩ 3 60 = ⟨false, {}, [], 1⟩ ∧
    initialize_session {} (fun _ => LoginResult.throttle)
        ⟨"s", "f", "t"⟩ 3 60 = ⟨false, {}, [60, 120], 3⟩ := by
  refine ⟨⟨rfl, by decide, ?_⟩, ?_, ?_⟩
  · have h := (C6_initialize_session_retry_policy {}
      (fun j => if j < 2 then LoginResult.throttle else LoginResult.success)
      ⟨"s", "f", "t"⟩ 3 60 2 rfl).1 (by decide) (by decide) (by decide)
    rw [h]
    rfl
  · have h := (C6_initialize_session_retry_policy {}
      (fun _ => LoginResult.otherError) ⟨"s", "f", "t"⟩ 3 60 0 rfl).2.1
      (by omega) rfl (by omega)
    rw [h]
    rfl
  · have h := (C6_initialize_session_retry_policy {}
      (fun _ => LoginResult.throttle) ⟨"s", "f", "t"⟩ 3 60 0 rfl).2.2
      (fun i _ => rfl) (by omega)
    rw [h]
    rfl

end OptionTracker
